import Mathlib

/-!
Verification of the PVCharacterization driver (src/driver/driver.py).

The file shallowly embeds the protocol-relevant parts of `PVDriver`:
the command strings built by `get_position`, `set_position` and
`_get_state`, the dispatcher `_send_command` (semicolon check, write,
feedback-pattern check and the read-until-match loop), and the decoding
of `POS:`/`STATE:` response lines.

Python primitives used by the driver are modelled at the character-list
level:
* `str.split(sep)` for a one-character separator is `splitOnChar`;
* `float(s)` restricted to finite decimal literals (optional sign,
  digits, at most one point, surrounding whitespace) is `parseFloatChars`;
  special values such as infinities are outside the model, which is why
  theorems about the decoder restrict response fields to the decimal
  alphabet `isFloatField`;
* `int(s)` on decimal literals is `parseIntChars`;
* `p in s` (substring test) is `containsSub`;
* `s.endswith(";")` is `endsWithSemi`;
* numeric arguments (Python ints or floats) are `PyNum`, an exact
  decimal number `mant / 10 ^ exp`, and `str(x)` is `pyNumStr`, the
  decimal rendering that CPython produces for such a value.

Parsed floats are kept as the exact decimal `PyNum` they denote (CPython's
`str`/`float` pair is an exact round trip on the decimal literals the
driver exchanges); `PyNum.toRat` gives the rational value.
-/

/-- Whitespace characters stripped by Python's `float`/`int` parsers. -/
def isWS (c : Char) : Bool :=
  c = ' ' || c = '\t' || c = '\n' || c = '\r' || c = '\x0b' || c = '\x0c'

/-- Model of Python `s.split(sep)` for a one-character separator. -/
def splitOnChar (sep : Char) : List Char → List (List Char)
  | [] => [[]]
  | c :: rest =>
    if c = sep then [] :: splitOnChar sep rest
    else
      match splitOnChar sep rest with
      | [] => [[c]]
      | h :: t => (c :: h) :: t

/-- Strip leading and trailing whitespace, as Python's numeric parsers do. -/
def stripChars (l : List Char) : List Char :=
  ((l.dropWhile isWS).reverse.dropWhile isWS).reverse

/-- Numeric value of a decimal digit character. -/
def digVal (c : Char) : Nat := c.toNat - 48

/-- Value of a big-endian list of decimal digit characters. -/
def natVal (l : List Char) : Nat := l.foldl (fun a c => 10 * a + digVal c) 0

/-- All characters are decimal digits. -/
def allDigits (l : List Char) : Bool := l.all Char.isDigit

/-- A Python number with an exact decimal rendering (an int, or a float
written in decimal): the value `mant / 10 ^ exp`.  `exp = 0` models an
int, `exp > 0` a float printed with `exp` digits after the point. -/
structure PyNum where
  mant : Int
  exp : Nat
  deriving DecidableEq, Repr

/-- The rational value of a `PyNum`. -/
def PyNum.toRat (v : PyNum) : ℚ := (v.mant : ℚ) / (10 : ℚ) ^ v.exp

/-- Negation of a `PyNum`. -/
def PyNum.neg (v : PyNum) : PyNum := ⟨-v.mant, v.exp⟩

/-- Model of Python `float` on an unsigned body: digits with at most one
decimal point, at least one digit in total. -/
def parseUnsignedFloat (l : List Char) : Option PyNum :=
  match splitOnChar '.' l with
  | [ip] => if !ip.isEmpty && allDigits ip then some ⟨(natVal ip : Int), 0⟩ else none
  | [ip, fp] =>
    if !(ip ++ fp).isEmpty && allDigits ip && allDigits fp then
      some ⟨(natVal (ip ++ fp) : Int), fp.length⟩
    else none
  | _ => none

/-- Model of Python `float(s)` on finite decimal literals: strip
whitespace, then an optional sign followed by an unsigned body. -/
def parseFloatChars (s : List Char) : Option PyNum :=
  match stripChars s with
  | [] => none
  | c :: rest =>
    if c = '-' then (parseUnsignedFloat rest).map PyNum.neg
    else if c = '+' then parseUnsignedFloat rest
    else parseUnsignedFloat (c :: rest)

/-- Model of Python `float(s)` at the string level. -/
def parseFloat (s : String) : Option PyNum := parseFloatChars s.data

/-- Model of Python `int(s)` on decimal literals: strip whitespace, then
an optional sign followed by a nonempty digit string. -/
def parseIntChars (s : List Char) : Option Int :=
  match stripChars s with
  | [] => none
  | c :: rest =>
    if c = '-' then
      if !rest.isEmpty && allDigits rest then some (-(natVal rest : Int)) else none
    else if c = '+' then
      if !rest.isEmpty && allDigits rest then some (natVal rest : Int) else none
    else if allDigits (c :: rest) then some (natVal (c :: rest) : Int)
    else none

/-- Model of Python's substring test `p in s`. -/
def containsSub (p : List Char) : List Char → Bool
  | [] => p.isEmpty
  | c :: rest => p.isPrefixOf (c :: rest) || containsSub p rest

/-- The decimal digit character for `n < 10`. -/
def digitChar (n : Nat) : Char := Char.ofNat (48 + n)

/-- Big-endian decimal digits of a natural number (fuel-based so that it
reduces definitionally). -/
def natDigsAux : Nat → Nat → List Char
  | 0, _ => []
  | fuel + 1, n =>
    if n < 10 then [digitChar n]
    else natDigsAux fuel (n / 10) ++ [digitChar (n % 10)]

/-- Big-endian decimal digits of a natural number. -/
def natDigs (n : Nat) : List Char := natDigsAux (n + 1) n

/-- Left-pad a digit string with zeros to length at least `k`. -/
def leftPad (k : Nat) (l : List Char) : List Char :=
  List.replicate (k - l.length) '0' ++ l

/-- Model of Python `str(x)` for a `PyNum`: the exact decimal rendering,
a sign for negative values, the digits, and for `exp > 0` a decimal
point with `exp` digits after it. -/
def pyStrChars (v : PyNum) : List Char :=
  let sign : List Char := if v.mant < 0 then ['-'] else []
  let n := v.mant.natAbs
  if v.exp = 0 then sign ++ natDigs n
  else
    let ds := leftPad (v.exp + 1) (natDigs n)
    sign ++ (ds.take (ds.length - v.exp) ++ '.' :: ds.drop (ds.length - v.exp))

/-- Model of Python `str(x)` at the string level. -/
def pyNumStr (v : PyNum) : String := String.mk (pyStrChars v)

namespace PVDriver

/-- `PVDriver.IDLE` state constant. -/
def IDLE : Int := 0

/-- `PVDriver.MOVING` state constant. -/
def MOVING : Int := 1

/-- `PVDriver.ERROR` state constant. -/
def ERROR : Int := -1

/-- The failures the driver can raise, named after the spec's taxonomy:
`malformedCommand` and `missingResponsePattern` are the two
`RuntimeError`s of `_send_command`, `malformedResponse` stands for the
`ValueError`/`IndexError` a response parse can raise, and
`notImplemented` is the explicit failure the spec demands of the
controller-gain stubs. -/
inductive DriverError where
  | malformedCommand
  | missingResponsePattern
  | malformedResponse
  | notImplemented
  deriving DecidableEq, Repr

/-- Result of a Python call: a returned value or a raised error. -/
inductive DRes (α : Type) where
  | ok (a : α)
  | err (e : DriverError)
  deriving DecidableEq, Repr

/-- Outcome of `_send_command`: a returned value (`none` models Python's
implicit `None` when no feedback was requested), a raised error, or
`blocked` when the read loop exhausted the supplied incoming lines
without a match (the real loop would keep polling the serial port). -/
inductive Outcome where
  | returned (res : Option String)
  | raised (e : DriverError)
  | blocked
  deriving DecidableEq, Repr

/-- What one `_send_command` call did: the frames written to the
transport, the number of `readline` calls performed, and the outcome. -/
structure SendResult where
  writes : List String
  reads : Nat
  outcome : Outcome
  deriving DecidableEq, Repr

/-- Model of `cmd.endswith(';')`. -/
def endsWithSemi (s : String) : Bool := s.data.getLast? == some ';'

/-- The `while res_pattern not in res: res = readline()` loop of
`_send_command`, driven by the list of lines the device will produce:
returns the first line containing the pattern together with the number
of `readline` calls consumed, or `none` after exhausting the list. -/
def readLoop (p : String) : List String → Option String × Nat
  | [] => (none, 0)
  | l :: ls =>
    if containsSub p.data l.data then (some l, 1)
    else ((readLoop p ls).1, (readLoop p ls).2 + 1)

/-- Model of `PVDriver._send_command`: check the trailing semicolon,
write the frame, and if feedback is required check the response pattern
(Python's `if not res_pattern:` is also true for an empty pattern) and
poll for a matching line. -/
def sendCommand (cmd : String) (fbRequired : Bool) (resPat : Option String)
    (incoming : List String) : SendResult :=
  if !endsWithSemi cmd then ⟨[], 0, .raised .malformedCommand⟩
  else if fbRequired then
    match resPat with
    | none => ⟨[cmd], 0, .raised .missingResponsePattern⟩
    | some p =>
      if p.data.isEmpty then ⟨[cmd], 0, .raised .missingResponsePattern⟩
      else
        match readLoop p incoming with
        | (some res, n) => ⟨[cmd], n, .returned (some res)⟩
        | (none, n) => ⟨[cmd], n, .blocked⟩
  else ⟨[cmd], 0, .returned none⟩

/-- The response-decoding half of `get_position` (lines 48-49 of the
source): `float(res.split(':')[1].split(',')[0])` and
`float(res.split(':')[1].split(',')[1])`.  A missing index
(`IndexError`) or a failed `float` (`ValueError`) is the
`malformedResponse` failure. -/
def parsePositionRes (res : String) : DRes (PyNum × PyNum) :=
  match (splitOnChar ':' res.data).get? 1 with
  | none => .err .malformedResponse
  | some payload =>
    let fields := splitOnChar ',' payload
    match fields.get? 0, fields.get? 1 with
    | some f0, some f1 =>
      match parseFloatChars f0, parseFloatChars f1 with
      | some t, some r => .ok (t, r)
      | _, _ => .err .malformedResponse
    | _, _ => .err .malformedResponse

/-- The response-decoding half of `_get_state` (lines 151-157 of the
source): `int(res.split(':')[1])` compared against the `IDLE`/`MOVING`
constants, anything else mapping to `"ERROR"`. -/
def parseStateRes (res : String) : DRes String :=
  match (splitOnChar ':' res.data).get? 1 with
  | none => .err .malformedResponse
  | some payload =>
    match parseIntChars payload with
    | none => .err .malformedResponse
    | some st =>
      .ok (if st = IDLE then "IDLE" else if st = MOVING then "MOVING" else "ERROR")

/-- Outcome of a public driver call. -/
inductive CallOutcome (α : Type) where
  | returns (a : α)
  | raises (e : DriverError)
  | blocked
  deriving DecidableEq, Repr

/-- What one public driver call did. -/
structure CallResult (α : Type) where
  writes : List String
  reads : Nat
  out : CallOutcome α
  deriving DecidableEq, Repr

/-- Model of `PVDriver.get_position`: dispatch `"RP;"` awaiting a line
containing `"POS:"`, then decode it.  (`.returned none` cannot occur on
a feedback-requiring dispatch; it is mapped like a decode failure.) -/
def get_position (incoming : List String) : CallResult (PyNum × PyNum) :=
  let s := sendCommand "RP;" true (some "POS:") incoming
  ⟨s.writes, s.reads,
    match s.outcome with
    | .returned (some res) =>
      match parsePositionRes res with
      | .ok v => .returns v
      | .err e => .raises e
    | .returned none => .raises .malformedResponse
    | .raised e => .raises e
    | .blocked => .blocked⟩

/-- Model of `PVDriver._get_state`: dispatch `"RS;"` awaiting a line
containing `"STATE:"`, then decode it. -/
def get_state (incoming : List String) : CallResult String :=
  let s := sendCommand "RS;" true (some "STATE:") incoming
  ⟨s.writes, s.reads,
    match s.outcome with
    | .returned (some res) =>
      match parseStateRes res with
      | .ok v => .returns v
      | .err e => .raises e
    | .returned none => .raises .malformedResponse
    | .raised e => .raises e
    | .blocked => .blocked⟩

/-- Python truthiness of an optional numeric argument: `None` and zero
values are falsy (`if tilt and rot:` in the source). -/
def optTruthy : Option PyNum → Bool
  | none => false
  | some v => !(v.mant == 0)

/-- The value of an optional argument, only read on truthy branches. -/
def optVal : Option PyNum → PyNum
  | none => ⟨0, 0⟩
  | some v => v

/-- Model of `PVDriver.set_position`: build the `GT`/`GTR`/`GR`/`GRR`
frames according to which arguments are truthy and fire them without
feedback, returning the list of frames written to the transport in
order. -/
def set_position (tilt rot : Option PyNum) (relative : Bool) : List String :=
  if optTruthy tilt && optTruthy rot then
    let cmdTilt := (if relative then "GTR," else "GT,") ++ pyNumStr (optVal tilt) ++ ";"
    let cmdRot := (if relative then "GRR," else "GR,") ++ pyNumStr (optVal rot) ++ ";"
    (sendCommand cmdTilt false none []).writes ++ (sendCommand cmdRot false none []).writes
  else if optTruthy tilt then
    (sendCommand ((if relative then "GTR," else "GT,") ++ pyNumStr (optVal tilt) ++ ";")
      false none []).writes
  else if optTruthy rot then
    (sendCommand ((if relative then "GRR," else "GR,") ++ pyNumStr (optVal rot) ++ ";")
      false none []).writes
  else []

/-- Model of `PVDriver._get_controller_parameters`: the body is `pass`,
so the call writes nothing and silently returns `None`. -/
def get_controller_parameters : List String × DRes Unit := ([], .ok ())

/-- Model of `PVDriver._set_controller_parameters`: the body is `pass`,
so the call writes nothing and silently returns `None`. -/
def set_controller_parameters (P I D : Option PyNum) : List String × DRes Unit :=
  ([], .ok ())

/-- Axis of a set command. -/
inductive Axis where
  | tilt
  | rot
  deriving DecidableEq, Repr

/-- Setpoint interpretation of a set command. -/
inductive Mode where
  | absolute
  | relative
  deriving DecidableEq, Repr

/-- The typed commands of the wire protocol. -/
inductive Command where
  | getPosition
  | getState
  | setAxis (axis : Axis) (value : PyNum) (mode : Mode)
  deriving DecidableEq, Repr

/-- The command encoding of the driver, collected from the frame strings
the source builds inline: `"RP;"` in `get_position`, `"RS;"` in
`_get_state`, and the `"GT,"`/`"GTR,"`/`"GR,"`/`"GRR,"` concatenations
in `set_position`. -/
def encode : Command → String
  | .getPosition => "RP;"
  | .getState => "RS;"
  | .setAxis .tilt v .absolute => "GT," ++ pyNumStr v ++ ";"
  | .setAxis .tilt v .relative => "GTR," ++ pyNumStr v ++ ";"
  | .setAxis .rot v .absolute => "GR," ++ pyNumStr v ++ ";"
  | .setAxis .rot v .relative => "GRR," ++ pyNumStr v ++ ";"

/-- The numeric payload of a set frame: what stands between the
axis-and-comma opener (3 characters for `GT,`/`GR,` frames) and the
terminating semicolon. -/
def payloadAfter (openerLen : Nat) (frame : String) : String :=
  String.mk ((frame.data.drop openerLen).dropLast)

end PVDriver

/-- Characters that can appear in a decimal float literal accepted by
the modelled `float(s)`: digits, point, signs and whitespace. -/
def isFloatChar (c : Char) : Bool :=
  c.isDigit || c = '.' || c = '+' || c = '-' || isWS c

/-- A response field over the decimal-float alphabet. -/
def isFloatField (s : List Char) : Bool := s.all isFloatChar

/-- Characters that can appear in a decimal integer literal accepted by
the modelled `int(s)`: digits, signs and whitespace. -/
def isIntChar (c : Char) : Bool := c.isDigit || c = '+' || c = '-' || isWS c

/-- A response field over the decimal-integer alphabet. -/
def isIntField (s : List Char) : Bool := s.all isIntChar

theorem not_mem_of_all (p : Char → Bool) (l : List Char) (h : l.all p = true)
    (c : Char) (hc : p c = false) : c ∉ l := by
  intro hm
  have := List.all_eq_true.mp h c hm
  rw [hc] at this
  exact Bool.false_ne_true this

theorem splitOnChar_ne_nil (sep : Char) (l : List Char) : splitOnChar sep l ≠ [] := by
  cases l with
  | nil => simp [splitOnChar]
  | cons c rest =>
    by_cases h : c = sep
    · simp [splitOnChar, h]
    · simp only [splitOnChar, if_neg h]
      cases hs : splitOnChar sep rest <;> simp

theorem splitOnChar_not_mem (sep : Char) (l : List Char) (h : sep ∉ l) :
    splitOnChar sep l = [l] := by
  induction l with
  | nil => rfl
  | cons c rest ih =>
    have hc : ¬c = sep := fun e => h (e ▸ List.mem_cons_self c rest)
    have hr : sep ∉ rest := fun m => h (List.mem_cons_of_mem c m)
    simp only [splitOnChar, if_neg hc, ih hr]

theorem splitOnChar_append_sep (sep : Char) (pre l : List Char) (h : sep ∉ pre) :
    splitOnChar sep (pre ++ sep :: l) = pre :: splitOnChar sep l := by
  induction pre with
  | nil => simp [splitOnChar]
  | cons c rest ih =>
    have hc : ¬c = sep := fun e => h (e ▸ List.mem_cons_self c rest)
    have hr : sep ∉ rest := fun m => h (List.mem_cons_of_mem c m)
    have := ih hr
    simp only [List.cons_append, splitOnChar, if_neg hc, List.append_eq, this]

theorem natVal_nil : natVal [] = 0 := rfl

theorem natVal_go (l : List Char) (init : Nat) :
    l.foldl (fun a c => 10 * a + digVal c) init = init * 10 ^ l.length + natVal l := by
  induction l generalizing init with
  | nil => simp [natVal]
  | cons c t ih =>
    show t.foldl _ (10 * init + digVal c) = _
    rw [ih (10 * init + digVal c)]
    have hv : natVal (c :: t) = digVal c * 10 ^ t.length + natVal t := by
      show t.foldl _ (10 * 0 + digVal c) = _
      rw [ih (10 * 0 + digVal c)]
      ring_nf
    rw [hv]
    simp [List.length_cons, pow_succ]
    ring

theorem natVal_append (a b : List Char) :
    natVal (a ++ b) = natVal a * 10 ^ b.length + natVal b := by
  unfold natVal
  rw [List.foldl_append, natVal_go]
  rfl

theorem digitChar_isDigit (d : Nat) (h : d < 10) : (digitChar d).isDigit = true := by
  interval_cases d <;> decide

theorem digVal_digitChar (d : Nat) (h : d < 10) : digVal (digitChar d) = d := by
  interval_cases d <;> decide

theorem natVal_singleton (c : Char) : natVal [c] = digVal c := by
  simp [natVal, List.foldl]

theorem natDigsAux_spec (fuel n : Nat) (h : n < fuel) :
    natVal (natDigsAux fuel n) = n ∧ allDigits (natDigsAux fuel n) = true ∧
      natDigsAux fuel n ≠ [] := by
  induction fuel generalizing n with
  | zero => omega
  | succ fuel ih =>
    by_cases hn : n < 10
    · refine ⟨?_, ?_, ?_⟩
      · simp [natDigsAux, if_pos hn, natVal_singleton, digVal_digitChar n hn]
      · simp [natDigsAux, if_pos hn, allDigits, digitChar_isDigit n hn]
      · simp [natDigsAux, if_pos hn]
    · have hdiv : n / 10 < fuel := by
        have h1 : n / 10 < n := Nat.div_lt_self (by omega) (by omega)
        omega
      obtain ⟨hval, hdig, hne⟩ := ih (n / 10) hdiv
      have hmod : n % 10 < 10 := Nat.mod_lt n (by omega)
      refine ⟨?_, ?_, ?_⟩
      · simp only [natDigsAux, if_neg hn]
        rw [natVal_append, hval, natVal_singleton, digVal_digitChar _ hmod]
        simp
        omega
      · simp only [natDigsAux, if_neg hn, allDigits] at hdig ⊢
        simp [hdig, digitChar_isDigit _ hmod]
      · simp only [natDigsAux, if_neg hn]
        simp

theorem natDigs_val (n : Nat) : natVal (natDigs n) = n :=
  (natDigsAux_spec (n + 1) n (by omega)).1

theorem natDigs_allDigits (n : Nat) : allDigits (natDigs n) = true :=
  (natDigsAux_spec (n + 1) n (by omega)).2.1

theorem natDigs_ne_nil (n : Nat) : natDigs n ≠ [] :=
  (natDigsAux_spec (n + 1) n (by omega)).2.2

theorem dropWhile_eq_self_of (p : Char → Bool) (l : List Char)
    (h : ∀ c ∈ l, p c = false) : l.dropWhile p = l := by
  cases l with
  | nil => rfl
  | cons c t =>
    rw [List.dropWhile_cons, h c (List.mem_cons_self c t)]
    simp

theorem stripChars_eq_self (l : List Char) (h : ∀ c ∈ l, isWS c = false) :
    stripChars l = l := by
  unfold stripChars
  rw [dropWhile_eq_self_of _ _ h, dropWhile_eq_self_of, List.reverse_reverse]
  intro c hc
  exact h c (List.mem_reverse.mp hc)

theorem isWS_eq_false_of_isDigit (c : Char) (h : c.isDigit = true) : isWS c = false := by
  cases hw : isWS c with
  | false => rfl
  | true =>
    exfalso
    unfold isWS at hw
    simp only [Bool.or_eq_true, decide_eq_true_eq] at hw
    rcases hw with ((((h1 | h1) | h1) | h1) | h1) | h1 <;> subst h1 <;>
      exact absurd h (by decide)

theorem allDigits_replicate_zero (k : Nat) : allDigits (List.replicate k '0') = true := by
  simp only [allDigits, List.all_eq_true]
  intro c hc
  rw [List.eq_of_mem_replicate hc]
  decide

theorem natVal_replicate_zero (k : Nat) : natVal (List.replicate k '0') = 0 := by
  induction k with
  | zero => rfl
  | succ k ih =>
    show natVal ('0' :: List.replicate k '0') = 0
    unfold natVal at ih ⊢
    simpa using ih

theorem natVal_leftPad (k : Nat) (l : List Char) : natVal (leftPad k l) = natVal l := by
  unfold leftPad
  rw [natVal_append, natVal_replicate_zero]
  simp

theorem allDigits_leftPad (k : Nat) (l : List Char) (h : allDigits l = true) :
    allDigits (leftPad k l) = true := by
  unfold leftPad allDigits
  rw [List.all_append]
  have := allDigits_replicate_zero (k - l.length)
  unfold allDigits at this h
  simp [this, h]

theorem leftPad_length_ge (k : Nat) (l : List Char) : k ≤ (leftPad k l).length := by
  unfold leftPad
  rw [List.length_append, List.length_replicate]
  omega

theorem parseUnsignedFloat_digits (l : List Char) (h : allDigits l = true)
    (hne : l ≠ []) : parseUnsignedFloat l = some ⟨(natVal l : Int), 0⟩ := by
  have hdot : '.' ∉ l := not_mem_of_all Char.isDigit l h '.' (by decide)
  unfold parseUnsignedFloat
  rw [splitOnChar_not_mem '.' l hdot]
  simp [h, hne]

theorem parseUnsignedFloat_point (ip fp : List Char) (hip : allDigits ip = true)
    (hfp : allDigits fp = true) (hne : ip ≠ []) :
    parseUnsignedFloat (ip ++ '.' :: fp) =
      some ⟨(natVal (ip ++ fp) : Int), fp.length⟩ := by
  have hdotip : '.' ∉ ip := not_mem_of_all Char.isDigit ip hip '.' (by decide)
  have hdotfp : '.' ∉ fp := not_mem_of_all Char.isDigit fp hfp '.' (by decide)
  unfold parseUnsignedFloat
  rw [splitOnChar_append_sep '.' ip fp hdotip, splitOnChar_not_mem '.' fp hdotfp]
  have hne2 : ip ++ fp ≠ [] := by
    intro e
    exact hne (List.append_eq_nil.mp e).1
  simp [hip, hfp, hne2]

theorem parseFloatChars_digit_head (l : List Char) (h : allDigits l = true)
    (hne : l ≠ []) : parseFloatChars l = parseUnsignedFloat l := by
  have hws : ∀ c ∈ l, isWS c = false := by
    intro c hc
    exact isWS_eq_false_of_isDigit c (List.all_eq_true.mp h c hc)
  unfold parseFloatChars
  rw [stripChars_eq_self l hws]
  cases l with
  | nil => exact absurd rfl hne
  | cons c t =>
    have hcd : c.isDigit = true := List.all_eq_true.mp h c (List.mem_cons_self c t)
    have h1 : ¬c = '-' := fun e => by subst e; exact absurd hcd (by decide)
    have h2 : ¬c = '+' := fun e => by subst e; exact absurd hcd (by decide)
    simp [h1, h2]

theorem parseFloatChars_neg_head (l : List Char) (hws : ∀ c ∈ l, isWS c = false) :
    parseFloatChars ('-' :: l) = (parseUnsignedFloat l).map PyNum.neg := by
  unfold parseFloatChars
  rw [stripChars_eq_self ('-' :: l) ?hw]
  case hw =>
    intro c hc
    rcases List.mem_cons.mp hc with rfl | hc'
    · decide
    · exact hws c hc'
  simp

theorem parseFloatChars_cons_digit (c : Char) (t : List Char) (hc : c.isDigit = true)
    (hws : ∀ x ∈ c :: t, isWS x = false) :
    parseFloatChars (c :: t) = parseUnsignedFloat (c :: t) := by
  unfold parseFloatChars
  rw [stripChars_eq_self _ hws]
  have h1 : ¬c = '-' := fun e => by subst e; exact absurd hc (by decide)
  have h2 : ¬c = '+' := fun e => by subst e; exact absurd hc (by decide)
  simp [h1, h2]

theorem pyStrChars_spec (v : PyNum) (he : v.exp ≠ 0) :
    ∃ ip fp, pyStrChars v = (if v.mant < 0 then ['-'] else []) ++ (ip ++ '.' :: fp) ∧
      allDigits ip = true ∧ allDigits fp = true ∧ ip ≠ [] ∧
      natVal (ip ++ fp) = v.mant.natAbs ∧ fp.length = v.exp := by
  have hlen : v.exp + 1 ≤ (leftPad (v.exp + 1) (natDigs v.mant.natAbs)).length :=
    leftPad_length_ge _ _
  set ds := leftPad (v.exp + 1) (natDigs v.mant.natAbs) with hds
  have hall : allDigits ds = true := allDigits_leftPad _ _ (natDigs_allDigits _)
  refine ⟨ds.take (ds.length - v.exp), ds.drop (ds.length - v.exp), ?_, ?_, ?_, ?_, ?_, ?_⟩
  · simp only [pyStrChars, if_neg he, hds]
  · have := hall
    rw [← List.take_append_drop (ds.length - v.exp) ds] at this
    unfold allDigits at this ⊢
    rw [List.all_append, Bool.and_eq_true] at this
    exact this.1
  · have := hall
    rw [← List.take_append_drop (ds.length - v.exp) ds] at this
    unfold allDigits at this ⊢
    rw [List.all_append, Bool.and_eq_true] at this
    exact this.2
  · have hl : (ds.take (ds.length - v.exp)).length = ds.length - v.exp := by
      rw [List.length_take]
      omega
    intro e
    rw [e] at hl
    simp at hl
    omega
  · rw [List.take_append_drop, hds, natVal_leftPad, natDigs_val]
  · rw [List.length_drop]
    omega

theorem parseFloatChars_pyStrChars (v : PyNum) :
    parseFloatChars (pyStrChars v) = some v := by
  obtain ⟨m, e⟩ := v
  by_cases he : e = 0
  · subst he
    by_cases hm : m < 0
    · have hstr : pyStrChars ⟨m, 0⟩ = '-' :: natDigs m.natAbs := by
        simp [pyStrChars, hm]
      rw [hstr, parseFloatChars_neg_head _
          (fun c hc => isWS_eq_false_of_isDigit c
            (List.all_eq_true.mp (natDigs_allDigits _) c hc)),
        parseUnsignedFloat_digits _ (natDigs_allDigits _) (natDigs_ne_nil _), natDigs_val]
      have hmm : -((m.natAbs : Int)) = m := by omega
      show some (⟨-((m.natAbs : Int)), 0⟩ : PyNum) = some ⟨m, 0⟩
      rw [hmm]
    · have hstr : pyStrChars ⟨m, 0⟩ = natDigs m.natAbs := by
        simp [pyStrChars, hm]
      rw [hstr, parseFloatChars_digit_head _ (natDigs_allDigits _) (natDigs_ne_nil _),
        parseUnsignedFloat_digits _ (natDigs_allDigits _) (natDigs_ne_nil _), natDigs_val]
      have hmm : ((m.natAbs : Int)) = m := by omega
      rw [hmm]
  · obtain ⟨ip, fp, hstr0, hip, hfp, hipne, hval0, hlen0⟩ := pyStrChars_spec ⟨m, e⟩ he
    have hstr : pyStrChars ⟨m, e⟩ = (if m < 0 then ['-'] else []) ++ (ip ++ '.' :: fp) := hstr0
    have hval : natVal (ip ++ fp) = m.natAbs := hval0
    have hlen : fp.length = e := hlen0
    have hwsbody : ∀ x ∈ ip ++ '.' :: fp, isWS x = false := by
      intro x hx
      rcases List.mem_append.mp hx with hx' | hx'
      · exact isWS_eq_false_of_isDigit x (List.all_eq_true.mp hip x hx')
      · rcases List.mem_cons.mp hx' with rfl | hx''
        · decide
        · exact isWS_eq_false_of_isDigit x (List.all_eq_true.mp hfp x hx'')
    by_cases hm : m < 0
    · rw [hstr, if_pos hm, List.singleton_append,
        parseFloatChars_neg_head _ hwsbody,
        parseUnsignedFloat_point ip fp hip hfp hipne, hval, hlen]
      have hmm : -((m.natAbs : Int)) = m := by omega
      show some (⟨-((m.natAbs : Int)), e⟩ : PyNum) = some ⟨m, e⟩
      rw [hmm]
    · obtain ⟨c, t, rfl⟩ := List.exists_cons_of_ne_nil hipne
      have hc : c.isDigit = true :=
        List.all_eq_true.mp hip c (List.mem_cons_self c t)
      rw [hstr, if_neg hm, List.nil_append, List.cons_append,
        parseFloatChars_cons_digit c (t ++ '.' :: fp) hc
          (by rw [← List.cons_append]; exact hwsbody),
        ← List.cons_append, parseUnsignedFloat_point _ fp hip hfp hipne, hval, hlen]
      have hmm : ((m.natAbs : Int)) = m := by omega
      rw [hmm]

namespace PVDriver

theorem sendCommand_writes_of_semi (cmd : String) (fb : Bool) (pat : Option String)
    (lines : List String) (h : endsWithSemi cmd = true) :
    (sendCommand cmd fb pat lines).writes = [cmd] := by
  unfold sendCommand
  rw [h]
  cases fb with
  | false => rfl
  | true =>
    cases pat with
    | none => rfl
    | some p =>
      by_cases hp : p.data.isEmpty
      · simp [hp]
      · rcases hr : readLoop p lines with ⟨o, n⟩
        cases o <;> simp [hp, hr]

theorem sendCommand_nofb (cmd : String) (pat : Option String) (lines : List String)
    (h : endsWithSemi cmd = true) :
    sendCommand cmd false pat lines = ⟨[cmd], 0, .returned none⟩ := by
  unfold sendCommand
  rw [h]
  rfl

theorem sendCommand_bad (cmd : String) (fb : Bool) (pat : Option String)
    (lines : List String) (h : endsWithSemi cmd = false) :
    sendCommand cmd fb pat lines = ⟨[], 0, .raised .malformedCommand⟩ := by
  unfold sendCommand
  rw [h]
  rfl

theorem sendCommand_noPat (cmd : String) (lines : List String)
    (h : endsWithSemi cmd = true) :
    sendCommand cmd true none lines = ⟨[cmd], 0, .raised .missingResponsePattern⟩ := by
  unfold sendCommand
  rw [h]
  rfl

theorem endsWithSemi_concat (s : String) : endsWithSemi (s ++ ";") = true := by
  unfold endsWithSemi
  rw [String.data_append]
  have h : (";" : String).data = [';'] := rfl
  rw [h, List.getLast?_concat]
  rfl

theorem readLoop_first_iff (p r : String) (lines : List String) :
    (readLoop p lines).1 = some r ↔
      ∃ pre suf, lines = pre ++ r :: suf ∧
        (∀ l ∈ pre, containsSub p.data l.data = false) ∧
        containsSub p.data r.data = true := by
  induction lines with
  | nil =>
    constructor
    · intro h
      exact absurd h (by simp [readLoop])
    · rintro ⟨pre, suf, h, -, -⟩
      exact absurd h (by simp)
  | cons l ls ih =>
    by_cases hc : containsSub p.data l.data = true
    · simp only [readLoop, if_pos hc]
      constructor
      · intro h
        have hl : l = r := by
          injection h
        exact ⟨[], ls, by rw [hl]; rfl, by simp, hl ▸ hc⟩
      · rintro ⟨pre, suf, heq, hpre, hr⟩
        cases pre with
        | nil =>
          have : l = r := by
            have := congrArg (fun t => t.head?) heq
            simpa using this
          rw [this]
        | cons q qs =>
          have hlq : l = q := by
            have := congrArg (fun t => t.head?) heq
            simpa using this
          have hq := hpre q (List.mem_cons_self q qs)
          rw [← hlq, hc] at hq
          exact absurd hq (by simp)
    · have hcf : containsSub p.data l.data = false := by
        cases h : containsSub p.data l.data with
        | false => rfl
        | true => exact absurd h hc
      simp only [readLoop, if_neg hc]
      show (readLoop p ls).1 = some r ↔ _
      rw [ih]
      constructor
      · rintro ⟨pre, suf, heq, hpre, hr⟩
        refine ⟨l :: pre, suf, by rw [heq]; rfl, ?_, hr⟩
        intro x hx
        rcases List.mem_cons.mp hx with rfl | hx'
        · exact hcf
        · exact hpre x hx'
      · rintro ⟨pre, suf, heq, hpre, hr⟩
        cases pre with
        | nil =>
          have : l = r := by
            have := congrArg (fun t => t.head?) heq
            simpa using this
          rw [this] at hcf
          rw [hcf] at hr
          exact absurd hr (by simp)
        | cons q qs =>
          have hls : ls = qs ++ r :: suf := by
            have := congrArg (fun t => t.tail) heq
            simpa using this
          exact ⟨qs, suf, hls, fun x hx => hpre x (List.mem_cons_of_mem q hx), hr⟩

end PVDriver

theorem isPrefixOf_append_self (l rest : List Char) : l.isPrefixOf (l ++ rest) = true := by
  induction l with
  | nil => cases rest <;> rfl
  | cons c t ih => simp [List.isPrefixOf, ih]

theorem containsSub_head (p rest : List Char) : containsSub p (p ++ rest) = true := by
  cases p with
  | nil =>
    cases rest with
    | nil => rfl
    | cons c t => simp [containsSub, List.isPrefixOf]
  | cons c t =>
    have h1 : (c :: t).isPrefixOf ((c :: t) ++ rest) = true := isPrefixOf_append_self _ _
    show ((c :: t).isPrefixOf ((c :: t) ++ rest) || containsSub (c :: t) (t ++ rest)) = true
    rw [h1]
    rfl

theorem floatField_no_colon (s : List Char) (h : isFloatField s = true) : ':' ∉ s :=
  not_mem_of_all isFloatChar s h ':' (by decide)

theorem floatField_no_comma (s : List Char) (h : isFloatField s = true) : ',' ∉ s :=
  not_mem_of_all isFloatChar s h ',' (by decide)

theorem intField_no_colon (s : List Char) (h : isIntField s = true) : ':' ∉ s :=
  not_mem_of_all isIntChar s h ':' (by decide)

namespace PVDriver

theorem parsePositionRes_eq (a b r : String)
    (ha : isFloatField a.data = true) (hb : isFloatField b.data = true)
    (hr : r.data = [] ∨ ∃ r0 : List Char, r.data = ',' :: r0 ∧ ':' ∉ r0) :
    parsePositionRes ("POS:" ++ a ++ "," ++ b ++ r) =
      match parseFloatChars a.data, parseFloatChars b.data with
      | some x, some y => DRes.ok (x, y)
      | _, _ => DRes.err DriverError.malformedResponse := by
  have hpd : ("POS:" ++ a ++ "," ++ b ++ r).data
      = ['P', 'O', 'S'] ++ ':' :: (a.data ++ ',' :: (b.data ++ r.data)) := by
    simp [String.data_append]
  have hcolon : ':' ∉ a.data ++ ',' :: (b.data ++ r.data) := by
    intro hm
    rcases List.mem_append.mp hm with h1 | h1
    · exact floatField_no_colon a.data ha h1
    · rcases List.mem_cons.mp h1 with h2 | h2
      · exact absurd h2 (by decide)
      · rcases List.mem_append.mp h2 with h3 | h3
        · exact floatField_no_colon b.data hb h3
        · rcases hr with h4 | ⟨r0, h4, h5⟩
          · rw [h4] at h3
            exact absurd h3 (List.not_mem_nil ':')
          · rw [h4] at h3
            rcases List.mem_cons.mp h3 with h6 | h6
            · exact absurd h6 (by decide)
            · exact h5 h6
  have hsplit1 : splitOnChar ':' ("POS:" ++ a ++ "," ++ b ++ r).data
      = [['P', 'O', 'S'], a.data ++ ',' :: (b.data ++ r.data)] := by
    rw [hpd, splitOnChar_append_sep ':' ['P', 'O', 'S'] _ (by decide),
      splitOnChar_not_mem ':' _ hcolon]
  obtain ⟨tl, htl⟩ :
      ∃ tl, splitOnChar ',' (a.data ++ ',' :: (b.data ++ r.data))
        = a.data :: b.data :: tl := by
    rcases hr with h4 | ⟨r0, h4, -⟩
    · refine ⟨[], ?_⟩
      rw [h4, List.append_nil,
        splitOnChar_append_sep ',' a.data b.data (floatField_no_comma a.data ha),
        splitOnChar_not_mem ',' b.data (floatField_no_comma b.data hb)]
    · refine ⟨splitOnChar ',' r0, ?_⟩
      rw [h4, splitOnChar_append_sep ',' a.data _ (floatField_no_comma a.data ha),
        splitOnChar_append_sep ',' b.data r0 (floatField_no_comma b.data hb)]
  unfold parsePositionRes
  rw [hsplit1]
  show (match (splitOnChar ',' (a.data ++ ',' :: (b.data ++ r.data))).get? 0,
      (splitOnChar ',' (a.data ++ ',' :: (b.data ++ r.data))).get? 1 with
    | some f0, some f1 =>
      match parseFloatChars f0, parseFloatChars f1 with
      | some t, some r => DRes.ok (t, r)
      | _, _ => DRes.err DriverError.malformedResponse
    | _, _ => DRes.err DriverError.malformedResponse) = _
  rw [htl]
  rfl

theorem parseStateRes_eq (s : String) (hs : isIntField s.data = true) :
    parseStateRes ("STATE:" ++ s) =
      match parseIntChars s.data with
      | some n => DRes.ok (if n = IDLE then "IDLE" else if n = MOVING then "MOVING" else "ERROR")
      | none => DRes.err DriverError.malformedResponse := by
  have hpd : ("STATE:" ++ s).data = ['S', 'T', 'A', 'T', 'E'] ++ ':' :: s.data := by
    simp [String.data_append]
  have hsplit1 : splitOnChar ':' ("STATE:" ++ s).data
      = [['S', 'T', 'A', 'T', 'E'], s.data] := by
    rw [hpd, splitOnChar_append_sep ':' ['S', 'T', 'A', 'T', 'E'] _ (by decide),
      splitOnChar_not_mem ':' _ (intField_no_colon s.data hs)]
  unfold parseStateRes
  rw [hsplit1]
  show (match parseIntChars s.data with
    | none => DRes.err DriverError.malformedResponse
    | some st =>
      DRes.ok (if st = IDLE then "IDLE" else if st = MOVING then "MOVING" else "ERROR")) = _
  cases parseIntChars s.data <;> rfl

end PVDriver

namespace PVDriver

theorem readLoop_singleton_match (p l : String) (h : containsSub p.data l.data = true) :
    readLoop p [l] = (some l, 1) := by
  unfold readLoop
  simp [h]

theorem sendCommand_fb_match (cmd p l : String) (hsemi : endsWithSemi cmd = true)
    (hp : p.data.isEmpty = false) (h : containsSub p.data l.data = true) :
    sendCommand cmd true (some p) [l] = ⟨[cmd], 1, .returned (some l)⟩ := by
  unfold sendCommand
  simp [hsemi, hp, readLoop_singleton_match p l h]

end PVDriver

open PVDriver

/-- C1, counterexample to the claim as stated: on the spec's own example
response line `"POS:12.5,-3.25;"` (with the trailing semicolon that the
claim's line format `POS:<a>,<b>;` prescribes), `get_position` does not
return tilt 12.5 and rotation -3.25: the semicolon is part of the second
comma field, `float("-3.25;")` raises, and the call fails with
`MalformedResponse`. -/
theorem c1_counterexample :
    (get_position ["POS:12.5,-3.25;"]).out
        = CallOutcome.raises DriverError.malformedResponse ∧
      (get_position ["POS:12.5,-3.25;"]).out
        ≠ CallOutcome.returns (⟨125, 1⟩, ⟨-325, 2⟩) := by
  exact ⟨by decide, by decide⟩

/-- C1 (amended): for every received response line of the form
`POS:<a>,<b>` — without a trailing semicolon, as the source's own comment
documents — where the two fields range over the decimal-float alphabet,
`get_position` returns tilt `parse(a)` and rotation `parse(b)` when both
fields are valid float literals, and fails with `MalformedResponse`
(never partial data) when either of the first two comma-separated fields
is not a valid float; extra comma-separated material after the second
field (the `r` suffix) is ignored rather than rejected. -/
theorem c1_theorem (a b r : String)
    (ha : isFloatField a.data = true) (hb : isFloatField b.data = true)
    (hr : r.data = [] ∨ ∃ r0 : List Char, r.data = ',' :: r0 ∧ ':' ∉ r0) :
    (get_position ["POS:" ++ a ++ "," ++ b ++ r]).out =
      match parseFloatChars a.data, parseFloatChars b.data with
      | some x, some y => CallOutcome.returns (x, y)
      | _, _ => CallOutcome.raises DriverError.malformedResponse := by
  have hd := parsePositionRes_eq a b r ha hb hr
  have hline : containsSub "POS:".data ("POS:" ++ a ++ "," ++ b ++ r).data = true := by
    have hpd : ("POS:" ++ a ++ "," ++ b ++ r).data
        = ['P', 'O', 'S'] ++ ':' :: (a.data ++ ',' :: (b.data ++ r.data)) := by
      simp [String.data_append]
    rw [hpd]
    exact containsSub_head "POS:".data (a.data ++ ',' :: (b.data ++ r.data))
  have hsend := sendCommand_fb_match "RP;" "POS:" ("POS:" ++ a ++ "," ++ b ++ r)
    rfl rfl hline
  show (match (sendCommand "RP;" true (some "POS:")
        ["POS:" ++ a ++ "," ++ b ++ r]).outcome with
    | .returned (some res) =>
      match parsePositionRes res with
      | .ok v => CallOutcome.returns v
      | .err e => CallOutcome.raises e
    | .returned none => CallOutcome.raises DriverError.malformedResponse
    | .raised e => CallOutcome.raises e
    | .blocked => CallOutcome.blocked) = _
  rw [hsend]
  show (match parsePositionRes ("POS:" ++ a ++ "," ++ b ++ r) with
    | .ok v => CallOutcome.returns v
    | .err e => CallOutcome.raises e) = _
  rw [hd]
  cases hA : parseFloatChars a.data <;> cases hB : parseFloatChars b.data <;> rfl

/-- C1 witness: on the semicolon-free line `"POS:12.5,-3.25"` the call
returns tilt 12.5 and rotation -3.25. -/
theorem c1_witness :
    (get_position ["POS:12.5,-3.25"]).out
      = CallOutcome.returns (⟨125, 1⟩, ⟨-325, 2⟩) := by
  show (get_position ["POS:" ++ "12.5" ++ "," ++ "-3.25" ++ ""]).out
    = CallOutcome.returns (⟨125, 1⟩, ⟨-325, 2⟩)
  rw [ c1_theorem "12.5" "-3.25" "" (by decide) (by decide) (Or.inl rfl)]
  decide

/-- C2, counterexample to the claim as stated: on the response line
`"STATE:0;"` (the claim's line format `STATE:<n>;` with `n = 0`),
`_get_state` does not return `IDLE`: `int("0;")` raises on the trailing
semicolon and the call fails with `MalformedResponse`. -/
theorem c2_counterexample :
    (get_state ["STATE:0;"]).out = CallOutcome.raises DriverError.malformedResponse ∧
      (get_state ["STATE:0;"]).out ≠ CallOutcome.returns "IDLE" := by
  exact ⟨by decide, by decide⟩

/-- C2 (amended): for every received response line of the form
`STATE:<n>` — without a trailing semicolon, as the source's own comment
documents — with the payload over the decimal-integer alphabet,
`_get_state` returns `IDLE` when `n = 0`, `MOVING` when `n = 1`, and
`ERROR` for every other integer (including negative ones); it never
raises on an out-of-range state code and fails with `MalformedResponse`
exactly when the payload is not a valid integer. -/
theorem c2_theorem (s : String) (hs : isIntField s.data = true) :
    (get_state ["STATE:" ++ s]).out =
      match parseIntChars s.data with
      | some n => CallOutcome.returns
          (if n = IDLE then "IDLE" else if n = MOVING then "MOVING" else "ERROR")
      | none => CallOutcome.raises DriverError.malformedResponse := by
  have hd := parseStateRes_eq s hs
  have hline : containsSub "STATE:".data ("STATE:" ++ s).data = true := by
    have hpd : ("STATE:" ++ s).data = ['S', 'T', 'A', 'T', 'E'] ++ ':' :: s.data := by
      simp [String.data_append]
    rw [hpd]
    exact containsSub_head "STATE:".data s.data
  have hsend := sendCommand_fb_match "RS;" "STATE:" ("STATE:" ++ s) rfl rfl hline
  show (match (sendCommand "RS;" true (some "STATE:") ["STATE:" ++ s]).outcome with
    | .returned (some res) =>
      match parseStateRes res with
      | .ok v => CallOutcome.returns v
      | .err e => CallOutcome.raises e
    | .returned none => CallOutcome.raises DriverError.malformedResponse
    | .raised e => CallOutcome.raises e
    | .blocked => CallOutcome.blocked) = _
  rw [hsend]
  show (match parseStateRes ("STATE:" ++ s) with
    | .ok v => CallOutcome.returns v
    | .err e => CallOutcome.raises e) = _
  rw [hd]
  cases parseIntChars s.data <;> rfl

/-- C2 witness: `"STATE:0"` yields `IDLE`, `"STATE:1"` yields `MOVING`,
and the out-of-range codes `"STATE:-7"` and `"STATE:7"` yield `ERROR`
without raising. -/
theorem c2_witness :
    (get_state ["STATE:0"]).out = CallOutcome.returns "IDLE" ∧
    (get_state ["STATE:1"]).out = CallOutcome.returns "MOVING" ∧
    (get_state ["STATE:-7"]).out = CallOutcome.returns "ERROR" ∧
    (get_state ["STATE:7"]).out = CallOutcome.returns "ERROR" := by
  refine ⟨?_, ?_, ?_, ?_⟩
  · show (get_state ["STATE:" ++ "0"]).out = CallOutcome.returns "IDLE"
    rw [ c2_theorem "0" (by decide)]
    decide
  · show (get_state ["STATE:" ++ "1"]).out = CallOutcome.returns "MOVING"
    rw [ c2_theorem "1" (by decide)]
    decide
  · show (get_state ["STATE:" ++ "-7"]).out = CallOutcome.returns "ERROR"
    rw [ c2_theorem "-7" (by decide)]
    decide
  · show (get_state ["STATE:" ++ "7"]).out = CallOutcome.returns "ERROR"
    rw [ c2_theorem "7" (by decide)]
    decide

/-- C3: the command encoding is exactly the stated mapping —
`GetPosition` encodes to `"RP;"` (the frame `get_position` writes),
`GetState` to `"RS;"` (the frame `_get_state` writes), and for every
value `v`, tilt/rotation setpoints encode to `"GT,<v>;"`, `"GTR,<v>;"`,
`"GR,<v>;"` and `"GRR,<v>;"` with `<v>` the deterministic decimal
serialization of `v`. -/
theorem c3_theorem :
    encode .getPosition = "RP;" ∧ encode .getState = "RS;" ∧
    (∀ v : PyNum,
      encode (.setAxis .tilt v .absolute) = "GT," ++ pyNumStr v ++ ";" ∧
      encode (.setAxis .tilt v .relative) = "GTR," ++ pyNumStr v ++ ";" ∧
      encode (.setAxis .rot v .absolute) = "GR," ++ pyNumStr v ++ ";" ∧
      encode (.setAxis .rot v .relative) = "GRR," ++ pyNumStr v ++ ";") ∧
    (∀ incoming, (get_position incoming).writes = ["RP;"]) ∧
    (∀ incoming, (get_state incoming).writes = ["RS;"]) := by
  refine ⟨rfl, rfl, fun v => ⟨rfl, rfl, rfl, rfl⟩, fun incoming => ?_, fun incoming => ?_⟩
  · show (sendCommand "RP;" true (some "POS:") incoming).writes = ["RP;"]
    exact sendCommand_writes_of_semi _ _ _ _ rfl
  · show (sendCommand "RS;" true (some "STATE:") incoming).writes = ["RS;"]
    exact sendCommand_writes_of_semi _ _ _ _ rfl

/-- C4, counterexample to the claim as stated: `set_position` with
tilt 0 provided (and no rotation) performs zero transport writes, not
one: Python's `if tilt and rot:` / `elif tilt:` treats the value 0 as
"not provided". -/
theorem c4_counterexample :
    set_position (some ⟨0, 0⟩) none false = [] ∧
      (set_position (some ⟨0, 0⟩) none false).length ≠ 1 := by
  exact ⟨by decide, by decide⟩

/-- C4 (amended): `set_position` issues exactly as many transport writes
as axis values are provided and truthy (non-`None` and non-zero — a zero
setpoint is treated as absent by Python truthiness): zero truthy values
give zero writes, one gives exactly one write, both give exactly two
writes with the tilt command first; in particular tilt 5 alone writes
exactly `"GT,5;"`, and tilt 5 with rotation -2 in relative mode writes
`"GTR,5;"` then `"GRR,-2;"` in that order. -/
theorem c4_theorem :
    (∀ tilt rot rel, (set_position tilt rot rel).length =
      (if optTruthy tilt then 1 else 0) + (if optTruthy rot then 1 else 0)) ∧
    (∀ t r rel, optTruthy (some t) = true → optTruthy (some r) = true →
      set_position (some t) (some r) rel =
        [(if rel then "GTR," else "GT,") ++ pyNumStr t ++ ";",
         (if rel then "GRR," else "GR,") ++ pyNumStr r ++ ";"]) ∧
    set_position (some ⟨5, 0⟩) none false = ["GT,5;"] ∧
    set_position (some ⟨5, 0⟩) (some ⟨-2, 0⟩) true = ["GTR,5;", "GRR,-2;"] := by
  refine ⟨?_, ?_, by decide, by decide⟩
  · intro tilt rot rel
    unfold set_position
    by_cases h1 : optTruthy tilt <;> by_cases h2 : optTruthy rot <;>
      simp [h1, h2, sendCommand_nofb, endsWithSemi_concat]
  · intro t r rel ht hr
    unfold set_position
    simp [ht, hr, optVal, sendCommand_nofb, endsWithSemi_concat]

/-- C4 witness: two truthy values give the tilt command first and then
the rotation command. -/
theorem c4_witness :
    set_position (some ⟨2, 0⟩) (some ⟨3, 0⟩) false = ["GT,2;", "GR,3;"] := by
  rw [c4_theorem.2.1 ⟨2, 0⟩ ⟨3, 0⟩ false (by decide) (by decide)]
  decide

/-- C5: the dispatcher's wait loop never terminates on a line that does
not contain the required pattern — it returns `r` exactly when the
incoming lines split as a prefix of non-matching lines followed by `r`,
the first line containing the pattern. -/
theorem c5_theorem (p r : String) (lines : List String) :
    (readLoop p lines).1 = some r ↔
      ∃ pre suf, lines = pre ++ r :: suf ∧
        (∀ l ∈ pre, containsSub p.data l.data = false) ∧
        containsSub p.data r.data = true :=
  readLoop_first_iff p r lines

/-- C5 witness: a junk line is discarded and the next matching line is
returned. -/
theorem c5_witness :
    (readLoop "POS:" ["garbage", "POS:12.5,-3.25"]).1 = some "POS:12.5,-3.25" :=
  ( c5_theorem "POS:" "POS:12.5,-3.25" ["garbage", "POS:12.5,-3.25"]).mpr
    ⟨["garbage"], [], rfl, by decide, by decide⟩

/-- C6: a command string that does not end with `';'` makes the
dispatcher fail with `MalformedCommand` before anything is written, and
consequently every frame that reaches the transport ends with `';'`. -/
theorem c6_theorem :
    (∀ cmd fb pat lines, endsWithSemi cmd = false →
      sendCommand cmd fb pat lines
        = ⟨[], 0, Outcome.raised DriverError.malformedCommand⟩) ∧
    (∀ cmd fb pat lines w, w ∈ (sendCommand cmd fb pat lines).writes →
      endsWithSemi w = true) := by
  constructor
  · exact fun cmd fb pat lines h => sendCommand_bad cmd fb pat lines h
  · intro cmd fb pat lines w hw
    by_cases h : endsWithSemi cmd = true
    · rw [sendCommand_writes_of_semi cmd fb pat lines h, List.mem_singleton] at hw
      rw [hw]
      exact h
    · have hf : endsWithSemi cmd = false := by
        cases hh : endsWithSemi cmd with
        | false => rfl
        | true => exact absurd hh h
      rw [sendCommand_bad cmd fb pat lines hf] at hw
      exact absurd hw (List.not_mem_nil w)

/-- C6 witness: the unterminated command `"RP"` is rejected with
`MalformedCommand` and zero writes. -/
theorem c6_witness :
    sendCommand "RP" true (some "POS:") ["POS:1,2"]
      = ⟨[], 0, Outcome.raised DriverError.malformedCommand⟩ :=
  c6_theorem.1 "RP" true (some "POS:") ["POS:1,2"] (by decide)

/-- C7, counterexample to the claim as stated: neither controller-gain
stub fails with `NotImplemented` — both silently return. -/
theorem c7_counterexample :
    get_controller_parameters.2 ≠ DRes.err DriverError.notImplemented ∧
      (set_controller_parameters none none none).2
        ≠ DRes.err DriverError.notImplemented := by
  exact ⟨by decide, by decide⟩

/-- C7 (amended): invoking the controller-gain operations silently does
nothing — the legacy stubs perform no transport write and raise no
error, returning `None`; they do not fail with `NotImplemented`. -/
theorem c7_theorem (P I D : Option PyNum) :
    get_controller_parameters = ([], DRes.ok ()) ∧
    set_controller_parameters P I D = ([], DRes.ok ()) :=
  ⟨rfl, rfl⟩

/-- C8: dispatching a wire frame with feedback required but no response
pattern supplied fails with `MissingResponsePattern`, with zero reads
performed — the failure occurs before any read from the transport. -/
theorem c8_theorem (cmd : String) (h : endsWithSemi cmd = true) (lines : List String) :
    sendCommand cmd true none lines
      = ⟨[cmd], 0, Outcome.raised DriverError.missingResponsePattern⟩ :=
  sendCommand_noPat cmd lines h

/-- C8 witness: `"RP;"` with feedback required and no pattern fails with
`MissingResponsePattern` after zero reads even though a matching line
was available. -/
theorem c8_witness :
    sendCommand "RP;" true none ["POS:1,2"]
      = ⟨["RP;"], 0, Outcome.raised DriverError.missingResponsePattern⟩ :=
  c8_theorem "RP;" (by decide) ["POS:1,2"]

/-- C9: round trip — for every value `v`, the numeric payload of the
encoded `SetAxis(Tilt, v, Absolute)` frame (the `<v>` between `"GT,"`
and `";"`) parses back, with the decoder's float parser, to exactly `v`,
hence to a value equal to `v`. -/
theorem c9_theorem (v : PyNum) :
    parseFloat (payloadAfter 3 (encode (.setAxis .tilt v .absolute))) = some v ∧
    (parseFloat (payloadAfter 3 (encode (.setAxis .tilt v .absolute)))).map PyNum.toRat
      = some v.toRat := by
  have hp : payloadAfter 3 (encode (.setAxis .tilt v .absolute)) = pyNumStr v := by
    show String.mk ((("GT," ++ pyNumStr v ++ ";").data.drop 3).dropLast) = pyNumStr v
    have hd : ("GT," ++ pyNumStr v ++ ";").data
        = 'G' :: 'T' :: ',' :: (pyStrChars v ++ [';']) := by
      simp [String.data_append, pyNumStr]
    rw [hd]
    show String.mk ((pyStrChars v ++ [';']).dropLast) = pyNumStr v
    rw [List.dropLast_concat]
    rfl
  rw [hp]
  have hv : parseFloat (pyNumStr v) = some v := parseFloatChars_pyStrChars v
  rw [hv]
  exact ⟨rfl, rfl⟩

/-- C10 (implicit): when the dispatcher raises the
missing-response-pattern error, the command's bytes have already been
written to the transport — the frame is sent even though the caller sees
a failure. -/
theorem c10_theorem (cmd : String) (h : endsWithSemi cmd = true) (lines : List String) :
    (sendCommand cmd true none lines).writes = [cmd] ∧
    (sendCommand cmd true none lines).outcome
      = Outcome.raised DriverError.missingResponsePattern := by
  rw [sendCommand_noPat cmd lines h]
  exact ⟨rfl, rfl⟩

/-- C10 witness: `"RS;"` is written to the transport before the
missing-pattern failure is raised. -/
theorem c10_witness :
    (sendCommand "RS;" true none []).writes = ["RS;"] ∧
    (sendCommand "RS;" true none []).outcome
      = Outcome.raised DriverError.missingResponsePattern :=
  c10_theorem "RS;" (by decide) []

